import Mathlib

/-!
Shallow embedding of the wave PCM codec (reader.go / writer.go).

Byte streams are `List Nat` with every element a byte value below 256.
Machine integers are modelled as `Nat` with explicit reductions modulo
`2^16` / `2^32` exactly where the Go code's fixed-width arithmetic wraps,
and signed samples as `Int` with explicit two's-complement conversions.
-/

/-- ASCII bytes of the string "RIFF". -/
def riffBytes : List Nat := [82, 73, 70, 70]

/-- ASCII bytes of the string "WAVE". -/
def waveBytes : List Nat := [87, 65, 86, 69]

/-- ASCII bytes of the string "fmt " (with trailing space). -/
def fmtBytes : List Nat := [102, 109, 116, 32]

/-- ASCII bytes of the string "data". -/
def dataBytes : List Nat := [100, 97, 116, 97]

/-- The `Header` struct of reader.go. Fixed-width unsigned fields are `Nat`
values kept below their width; the four-byte tags are byte lists. -/
structure Header where
  RiffID : List Nat
  DataSize : Nat
  RiffType : List Nat
  FmtChunkID : List Nat
  FmtChunkSize : Nat
  AudioFmt : Nat
  Channels : Nat
  SamplesPerSec : Nat
  BytesPerSec : Nat
  BlockAlign : Nat
  BitsPerSample : Nat
  DataChunkID : List Nat
  DataChunkSize : Nat
deriving DecidableEq, Repr

/-- byte4Cmp of reader.go: elementwise comparison of a [4]byte tag with the
four bytes of a four-character string (here given as its byte list). -/
def byte4Cmp (b : List Nat) (s : List Nat) : Bool := b == s

/-- The distinct validation errors of `Header.Validate`, one per failing
field check, carrying the expected and actual values printed by the
corresponding `fmt.Errorf` in reader.go. -/
inductive HeaderErr where
  | riffID (want got : List Nat)
  | riffType (want got : List Nat)
  | fmtChunkID (want got : List Nat)
  | dataChunkID (want got : List Nat)
  | fmtChunkSize (want got : Nat)
  | dataSize (want got : Nat)
  | audioFmt (got : Nat)
  | bitsPerSample (got : Nat)
deriving DecidableEq, Repr

/-- Header.Validate of reader.go: the if-chain of eight field checks, in
source order, returning the first failure. The DataSize comparison is
against the uint32 sum `36 + DataChunkSize`, which wraps modulo `2^32`. -/
def Header.Validate (h : Header) : Option HeaderErr :=
  if !(byte4Cmp h.RiffID riffBytes) then some (.riffID riffBytes h.RiffID)
  else if !(byte4Cmp h.RiffType waveBytes) then some (.riffType waveBytes h.RiffType)
  else if !(byte4Cmp h.FmtChunkID fmtBytes) then some (.fmtChunkID fmtBytes h.FmtChunkID)
  else if !(byte4Cmp h.DataChunkID dataBytes) then some (.dataChunkID dataBytes h.DataChunkID)
  else if h.FmtChunkSize ≠ 16 then some (.fmtChunkSize 16 h.FmtChunkSize)
  else if h.DataSize ≠ (36 + h.DataChunkSize) % 4294967296 then
    some (.dataSize ((36 + h.DataChunkSize) % 4294967296) h.DataSize)
  else if h.AudioFmt ≠ 1 then some (.audioFmt h.AudioFmt)
  else if h.BitsPerSample ≠ 8 ∧ h.BitsPerSample ≠ 16 ∧ h.BitsPerSample ≠ 24 ∧
      h.BitsPerSample ≠ 32 then some (.bitsPerSample h.BitsPerSample)
  else none

/-- The divisor of Header.GetSampleCount: in reader.go the product
`h.Channels*(h.BitsPerSample/8)` is computed in uint16, so it is reduced
modulo `2^16` before the division. -/
def Header.sampleDivisor (h : Header) : Nat :=
  h.Channels * (h.BitsPerSample / 8) % 65536

/-- Header.GetSampleCount of reader.go:
`int(h.DataChunkSize) / int(h.Channels*(h.BitsPerSample/8))`.
Go's integer division with a zero divisor is a runtime panic, modelled as
`none`. -/
def Header.GetSampleCount (h : Header) : Option Nat :=
  if h.sampleDivisor = 0 then none else some (h.DataChunkSize / h.sampleDivisor)

/-- The eight conditions of `Header.Validate`, as one proposition. -/
def Header.Valid (h : Header) : Prop :=
  h.RiffID = riffBytes ∧ h.RiffType = waveBytes ∧ h.FmtChunkID = fmtBytes ∧
  h.DataChunkID = dataBytes ∧ h.FmtChunkSize = 16 ∧
  h.DataSize = (36 + h.DataChunkSize) % 4294967296 ∧ h.AudioFmt = 1 ∧
  (h.BitsPerSample = 8 ∨ h.BitsPerSample = 16 ∨ h.BitsPerSample = 24 ∨
    h.BitsPerSample = 32)

lemma Validate_none_iff (h : Header) : h.Validate = none ↔ h.Valid := by
  unfold Header.Validate Header.Valid byte4Cmp
  split_ifs with h1 h2 h3 h4 h5 h6 h7 h8 <;>
    simp_all [beq_iff_eq] <;> tauto

/-! ## Byte streams and little-endian values -/

/-- Take exactly `n` bytes from the front of a stream; `none` models the
stream ending early. -/
def readBytes (n : Nat) (s : List Nat) : Option (List Nat × List Nat) :=
  if n ≤ s.length then some (s.take n, s.drop n) else none

/-- Value of a little-endian byte list (least significant byte first). -/
def leVal : List Nat → Nat
  | [] => 0
  | b :: bs => b + 256 * leVal bs

/-- Two-byte little-endian encoding of a 16-bit value. -/
def le16 (n : Nat) : List Nat := [n % 256, n / 256 % 256]

/-- Four-byte little-endian encoding of a 32-bit value. -/
def le32 (n : Nat) : List Nat :=
  [n % 256, n / 256 % 256, n / 65536 % 256, n / 16777216 % 256]

/-- Reinterpret a byte as a signed int8 (two's complement). -/
def toInt8 (n : Nat) : Int := if n < 128 then (n : Int) else (n : Int) - 256

/-- Reinterpret a 16-bit value as a signed int16 (two's complement). -/
def toInt16 (n : Nat) : Int := if n < 32768 then (n : Int) else (n : Int) - 65536

/-- Reinterpret a 32-bit value as a signed int32 (two's complement). -/
def toInt32 (n : Nat) : Int :=
  if n < 2147483648 then (n : Int) else (n : Int) - 4294967296

/-! ## Reader -/

instance {ε α : Type} [DecidableEq ε] [DecidableEq α] : DecidableEq (Except ε α) :=
  fun x y =>
    match x, y with
    | .error a, .error b =>
      if h : a = b then .isTrue (by subst h; rfl)
      else .isFalse (fun hh => h (by injection hh))
    | .ok a, .ok b =>
      if h : a = b then .isTrue (by subst h; rfl)
      else .isFalse (fun hh => h (by injection hh))
    | .error _, .ok _ => .isFalse (fun hh => Except.noConfusion hh)
    | .ok _, .error _ => .isFalse (fun hh => Except.noConfusion hh)

/-- The error outcomes of the read operations. `truncatedStream` is the
io error `binary.Read` surfaces when the stream ends mid-value;
`unsupportedEncoding` is ReadFloat's bits-per-sample rejection;
`badBits` stands for the `panic` in ReadInt's default switch branch
(reachable only for a bits-per-sample `Validate` would have rejected). -/
inductive ReadErr where
  | truncatedStream
  | unsupportedEncoding (bits : Nat)
  | badBits (bits : Nat)
deriving DecidableEq, Repr

/-- One channel of ReadInt's per-sample switch (reader.go): int8, int16 and
int32 are read little-endian and sign-extended; 24-bit reads an unsigned
16-bit little-endian low part then a signed 8-bit high part and combines
them as `int64(high)<<16 + int64(low)`. The final branch is the source's
panic on an unknown bits-per-sample. -/
def readSample (bps : Nat) (s : List Nat) : Except ReadErr (Int × List Nat) :=
  if bps = 8 then
    match readBytes 1 s with
    | none => .error .truncatedStream
    | some (bs, rest) => .ok (toInt8 (leVal bs), rest)
  else if bps = 16 then
    match readBytes 2 s with
    | none => .error .truncatedStream
    | some (bs, rest) => .ok (toInt16 (leVal bs), rest)
  else if bps = 32 then
    match readBytes 4 s with
    | none => .error .truncatedStream
    | some (bs, rest) => .ok (toInt32 (leVal bs), rest)
  else if bps = 24 then
    match readBytes 2 s with
    | none => .error .truncatedStream
    | some (lo, rest1) =>
      match readBytes 1 rest1 with
      | none => .error .truncatedStream
      | some (hi, rest2) => .ok (toInt8 (leVal hi) * 65536 + (leVal lo : Int), rest2)
  else .error (.badBits bps)

/-- The channel loop of ReadInt: decode `c` consecutive samples; any failed
channel fails the whole frame and no partial frame is returned. -/
def readFrameAux (bps : Nat) : Nat → List Nat → Except ReadErr (List Int × List Nat)
  | 0, s => .ok ([], s)
  | c + 1, s =>
    match readSample bps s with
    | .error e => .error e
    | .ok (v, s1) =>
      match readFrameAux bps c s1 with
      | .error e => .error e
      | .ok (vs, s2) => .ok (v :: vs, s2)

/-- Reader.ReadInt of reader.go: one `[]int64` frame, one entry per channel.
The reader's io.Reader is the explicit stream argument; the remaining
stream is returned alongside the frame. -/
def ReadInt (h : Header) (s : List Nat) : Except ReadErr (List Int × List Nat) :=
  readFrameAux h.BitsPerSample h.Channels s

/-- Group a byte stream into 32-bit little-endian words, 4 bytes each. -/
def chunk4 : List Nat → List Nat
  | b0 :: b1 :: b2 :: b3 :: rest => leVal [b0, b1, b2, b3] :: chunk4 rest
  | _ => []

/-- Reader.ReadFloat of reader.go. Float samples are represented by their
IEEE-754 binary32 bit patterns: the source widens each decoded float32 to
float64, a conversion that is exact (every binary32 value is a binary64
value), so the patterns carry the full information of the frame. A header
whose bits-per-sample is not 32 is rejected before the stream is touched;
the second component is the remaining stream. -/
def ReadFloat (h : Header) (s : List Nat) : Except ReadErr (List Nat) × List Nat :=
  if h.BitsPerSample ≠ 32 then (.error (.unsupportedEncoding h.BitsPerSample), s)
  else
    match readBytes (4 * h.Channels) s with
    | none => (.error .truncatedStream, s)
    | some (bs, rest) => (.ok (chunk4 bs), rest)

/-- Read `n` successive integer frames (the caller's read loop). -/
def readAllInt (h : Header) : Nat → List Nat → Except ReadErr (List (List Int) × List Nat)
  | 0, s => .ok ([], s)
  | n + 1, s =>
    match ReadInt h s with
    | .error e => .error e
    | .ok (f, s1) =>
      match readAllInt h n s1 with
      | .error e => .error e
      | .ok (fs, s2) => .ok (f :: fs, s2)

/-- Read `n` successive float frames (the caller's read loop). -/
def readAllFloat (h : Header) : Nat → List Nat → Except ReadErr (List (List Nat) × List Nat)
  | 0, s => .ok ([], s)
  | n + 1, s =>
    match ReadFloat h s with
    | (.error e, _) => .error e
    | (.ok f, s1) =>
      match readAllFloat h n s1 with
      | .error e => .error e
      | .ok (fs, s2) => .ok (f :: fs, s2)

/-- The 44-byte little-endian serialization of a header, fields in struct
order — what `binary.Write(w, binary.LittleEndian, &h)` emits. -/
def encodeHeader (h : Header) : List Nat :=
  h.RiffID ++ le32 h.DataSize ++ h.RiffType ++ h.FmtChunkID ++
  le32 h.FmtChunkSize ++ le16 h.AudioFmt ++ le16 h.Channels ++
  le32 h.SamplesPerSec ++ le32 h.BytesPerSec ++ le16 h.BlockAlign ++
  le16 h.BitsPerSample ++ h.DataChunkID ++ le32 h.DataChunkSize

/-- Header decoding, the effect of `binary.Read(r, binary.LittleEndian, &h)`:
44 bytes taken in struct order, multi-byte fields little-endian. -/
def decodeHeader (s : List Nat) : Option (Header × List Nat) := do
  let (riffID, s1) ← readBytes 4 s
  let (ds, s2) ← readBytes 4 s1
  let (riffType, s3) ← readBytes 4 s2
  let (fmtID, s4) ← readBytes 4 s3
  let (fcs, s5) ← readBytes 4 s4
  let (af, s6) ← readBytes 2 s5
  let (ch, s7) ← readBytes 2 s6
  let (sps, s8) ← readBytes 4 s7
  let (xps, s9) ← readBytes 4 s8
  let (ba, s10) ← readBytes 2 s9
  let (bits, s11) ← readBytes 2 s10
  let (dataID, s12) ← readBytes 4 s11
  let (dcs, s13) ← readBytes 4 s12
  some ({ RiffID := riffID, DataSize := leVal ds, RiffType := riffType,
          FmtChunkID := fmtID, FmtChunkSize := leVal fcs, AudioFmt := leVal af,
          Channels := leVal ch, SamplesPerSec := leVal sps,
          BytesPerSec := leVal xps, BlockAlign := leVal ba,
          BitsPerSample := leVal bits, DataChunkID := dataID,
          DataChunkSize := leVal dcs }, s13)

/-- The construction errors of NewReader: header too short, or a header
that fails `Validate`. -/
inductive NewReaderErr where
  | malformedHeader
  | invalidHeader (e : HeaderErr)
deriving DecidableEq, Repr

/-- NewReader of reader.go: decode the header, validate it, and return it
with the remaining stream (the sample data). -/
def NewReader (s : List Nat) : Except NewReaderErr (Header × List Nat) :=
  match decodeHeader s with
  | none => .error .malformedHeader
  | some (h, rest) =>
    match h.Validate with
    | some e => .error (.invalidHeader e)
    | none => .ok (h, rest)

/-! ## Writer -/

/-- The io.Writer collaborator: accumulated output bytes plus an optional
remaining capacity. A sink with `cap = none` accepts every write; one with
`cap = some c` fails a write of more than `c` bytes — the external failure
`binary.Write` surfaces. -/
structure Sink where
  out : List Nat
  cap : Option Nat
deriving DecidableEq, Repr

/-- One write call on the sink: all-or-nothing, `none` on failure. -/
def Sink.write (k : Sink) (bs : List Nat) : Option Sink :=
  match k.cap with
  | none => some { out := k.out ++ bs, cap := none }
  | some c =>
    if bs.length ≤ c then some { out := k.out ++ bs, cap := some (c - bs.length) }
    else none

/-- The Writer struct of writer.go, without its io.Writer (the sink is
passed explicitly alongside): header, frames written so far, and the
declared frame budget. -/
structure WaveWriter where
  H : Header
  ctr : Nat
  numSamples : Nat
deriving DecidableEq, Repr

/-- The error outcomes of the write operations in writer.go. -/
inductive WriteErr where
  | channelCountMismatch (want got : Nat)
  | frameBudgetExceeded (wrote : Nat)
  | unsupportedEncoding (bits : Nat)
  | writeFailed
deriving DecidableEq, Repr

/-- The narrowing conversion and little-endian serialization of one sample
in WriteInt's switch: `int8(sample)`, `int16(sample)` or `int32(sample)`
(Go conversions keep the low bits, two's complement) then the bytes
`binary.Write` emits for it. -/
def intBytes (bps : Nat) (v : Int) : List Nat :=
  if bps = 8 then [(v % 256).toNat]
  else if bps = 16 then le16 (v % 65536).toNat
  else if bps = 32 then le32 (v % 4294967296).toNat
  else []

/-- Bytes of one integer frame: each channel's sample serialized in order
(the `wsamples` slice written by one `binary.Write`). -/
def frameBytes (bps : Nat) (samples : List Int) : List Nat :=
  (samples.map (intBytes bps)).flatten

/-- Writer.WriteInt of writer.go. Checks, in source order: frame length
against channels, then the frame budget, then the 8/16/32 switch (24-bit
integer writing falls to the default branch and is rejected). Returns the
error alongside the writer and sink after the call: the writer is
unchanged on every failure, and only `ctr` changes on success. -/
def WriteInt (w : WaveWriter) (k : Sink) (samples : List Int) :
    Option WriteErr × WaveWriter × Sink :=
  if samples.length ≠ w.H.Channels then
    (some (.channelCountMismatch w.H.Channels samples.length), w, k)
  else if w.ctr + 1 > w.numSamples then
    (some (.frameBudgetExceeded w.ctr), w, k)
  else if w.H.BitsPerSample = 8 ∨ w.H.BitsPerSample = 16 ∨ w.H.BitsPerSample = 32 then
    match k.write (frameBytes w.H.BitsPerSample samples) with
    | none => (some .writeFailed, w, k)
    | some k2 => (none, { w with ctr := w.ctr + 1 }, k2)
  else (some (.unsupportedEncoding w.H.BitsPerSample), w, k)

/-- Writer.WriteFloat of writer.go, with float samples represented by
their binary32 bit patterns (the source narrows each float64 to float32
before writing; on a value that is exactly a binary32 value the narrowing
is the identity). Checks, in source order: frame length, frame budget,
then bits-per-sample = 32. -/
def WriteFloat (w : WaveWriter) (k : Sink) (samples : List Nat) :
    Option WriteErr × WaveWriter × Sink :=
  if samples.length ≠ w.H.Channels then
    (some (.channelCountMismatch w.H.Channels samples.length), w, k)
  else if w.ctr + 1 > w.numSamples then
    (some (.frameBudgetExceeded w.ctr), w, k)
  else if w.H.BitsPerSample ≠ 32 then
    (some (.unsupportedEncoding w.H.BitsPerSample), w, k)
  else
    match k.write ((samples.map le32).flatten) with
    | none => (some .writeFailed, w, k)
    | some k2 => (none, { w with ctr := w.ctr + 1 }, k2)

/-- The header literal NewWriter builds: derived fields computed in Go int
arithmetic then truncated by the uint32/uint16 conversions of the struct
literal. -/
def mkWriterHeader (channels samplesPerSec bitsPerSample numSamples : Nat) : Header :=
  let subChunk2Size := numSamples * channels * bitsPerSample / 8 % 4294967296
  { RiffID := riffBytes
    DataSize := (36 + subChunk2Size) % 4294967296
    RiffType := waveBytes
    FmtChunkID := fmtBytes
    FmtChunkSize := 16
    AudioFmt := 1
    Channels := channels % 65536
    SamplesPerSec := samplesPerSec % 4294967296
    BytesPerSec := samplesPerSec * channels * bitsPerSample / 8 % 4294967296
    BlockAlign := channels * bitsPerSample / 8 % 65536
    BitsPerSample := bitsPerSample % 65536
    DataChunkID := dataBytes
    DataChunkSize := subChunk2Size }

/-- NewWriter of writer.go: build the header, serialize it to the sink
before any frame data, and return the writer with `ctr = 0`; a sink
failure on the header write fails construction and returns no writer. -/
def NewWriter (k : Sink) (channels samplesPerSec bitsPerSample numSamples : Nat) :
    Option (WaveWriter × Sink) :=
  let h := mkWriterHeader channels samplesPerSec bitsPerSample numSamples
  match k.write (encodeHeader h) with
  | none => none
  | some k2 => some ({ H := h, ctr := 0, numSamples := numSamples }, k2)

/-- Write a list of integer frames in order, stopping at the first error
(the caller's write loop). -/
def writeAllInt (w : WaveWriter) (k : Sink) :
    List (List Int) → Option WriteErr × WaveWriter × Sink
  | [] => (none, w, k)
  | f :: fs =>
    match WriteInt w k f with
    | (none, w1, k1) => writeAllInt w1 k1 fs
    | e => e

/-- Write a list of float frames (binary32 patterns) in order, stopping at
the first error. -/
def writeAllFloat (w : WaveWriter) (k : Sink) :
    List (List Nat) → Option WriteErr × WaveWriter × Sink
  | [] => (none, w, k)
  | f :: fs =>
    match WriteFloat w k f with
    | (none, w1, k1) => writeAllFloat w1 k1 fs
    | e => e

/-! ## Basic lemmas -/

/-- A concretely valid header with the given channels, bits per sample and
data chunk size, used for witnesses and counterexamples. -/
def sampleHeader (c b dcs : Nat) : Header :=
  { RiffID := riffBytes, DataSize := (36 + dcs) % 4294967296,
    RiffType := waveBytes, FmtChunkID := fmtBytes, FmtChunkSize := 16,
    AudioFmt := 1, Channels := c, SamplesPerSec := 44100, BytesPerSec := 0,
    BlockAlign := 0, BitsPerSample := b, DataChunkID := dataBytes,
    DataChunkSize := dcs }

lemma readBytes_append {n : Nat} {l : List Nat} (t : List Nat)
    (hl : l.length = n) : readBytes n (l ++ t) = some (l, t) := by
  subst hl
  simp [readBytes, List.take_left, List.drop_left]

lemma leVal_le16 (x : Nat) : leVal (le16 x) = x % 65536 := by
  simp [le16, leVal]
  omega

lemma leVal_le32 (x : Nat) : leVal (le32 x) = x % 4294967296 := by
  simp [le32, leVal]
  omega

lemma le16_length (x : Nat) : (le16 x).length = 2 := rfl

lemma le32_length (x : Nat) : (le32 x).length = 4 := rfl

/-! ## C2: GetSampleCount's divisor -/

/-- C2 counterexample: on the header with channels = 40000,
bitsPerSample = 16, dataChunkSize = 80000 the mathematical divisor is
80000 and the exact quotient 1, but the code computes the divisor in
uint16 — `80000 % 65536 = 14464` — and returns 5. -/
theorem C2_counterexample :
    Header.GetSampleCount (sampleHeader 40000 16 80000) = some 5 ∧
    (sampleHeader 40000 16 80000).DataChunkSize /
      ((sampleHeader 40000 16 80000).Channels *
        ((sampleHeader 40000 16 80000).BitsPerSample / 8)) = 1 ∧
    Header.GetSampleCount (sampleHeader 40000 16 80000) ≠
      some ((sampleHeader 40000 16 80000).DataChunkSize /
        ((sampleHeader 40000 16 80000).Channels *
          ((sampleHeader 40000 16 80000).BitsPerSample / 8))) := by
  decide

/-- C2 amended: GetSampleCount equals dataChunkSize divided (integer
division, silently truncating) by the product channels × bitsPerSample/8
whenever that product fits in uint16 and is nonzero; the divisor is
computed in uint16 and wraps modulo 2^16 otherwise. -/
theorem C2_sampleCount_div (h : Header)
    (hfit : h.Channels * (h.BitsPerSample / 8) < 65536)
    (hnz : h.Channels * (h.BitsPerSample / 8) ≠ 0) :
    h.GetSampleCount = some (h.DataChunkSize / (h.Channels * (h.BitsPerSample / 8))) := by
  unfold Header.GetSampleCount Header.sampleDivisor
  rw [Nat.mod_eq_of_lt hfit, if_neg hnz]

/-- C2 witness: channels = 2, bitsPerSample = 16, dataChunkSize = 10 —
divisor 4, quotient 2 with the remainder silently dropped. -/
theorem C2_witness : Header.GetSampleCount (sampleHeader 2 16 10) = some 2 :=
  C2_sampleCount_div (sampleHeader 2 16 10) (by decide) (by decide)

/-! ## C3: Validate does not force a nonzero divisor -/

/-- C3 counterexample: a header with channels = 0 passes Validate (no
check constrains channels), and GetSampleCount on it divides by zero. -/
theorem C3_counterexample :
    Header.Validate (sampleHeader 0 8 0) = none ∧
    (sampleHeader 0 8 0).Channels = 0 ∧
    Header.GetSampleCount (sampleHeader 0 8 0) = none := by
  decide

/-- C3 amended: Validate does not check channels, so a validated header
may still have channels = 0 (or a uint16-wrapped zero divisor). Under the
extra assumptions channels > 0 and channels × bitsPerSample/8 < 2^16, a
validated header's GetSampleCount divisor is nonzero and the call returns
a count rather than dividing by zero. -/
theorem C3_validated_no_divzero (h : Header) (hv : h.Validate = none)
    (hc : 0 < h.Channels)
    (hfit : h.Channels * (h.BitsPerSample / 8) < 65536) :
    ∃ n, h.GetSampleCount = some n := by
  obtain ⟨-, -, -, -, -, -, -, hb⟩ := (Validate_none_iff h).mp hv
  have hbps : 1 ≤ h.BitsPerSample / 8 := by
    rcases hb with hb | hb | hb | hb <;> simp [hb]
  have hpos : 0 < h.Channels * (h.BitsPerSample / 8) := Nat.mul_pos hc hbps
  refine ⟨h.DataChunkSize / (h.Channels * (h.BitsPerSample / 8)), ?_⟩
  unfold Header.GetSampleCount Header.sampleDivisor
  rw [Nat.mod_eq_of_lt hfit, if_neg hpos.ne']

/-- C3 witness: a concretely validated stereo 16-bit header. -/
theorem C3_witness : ∃ n, Header.GetSampleCount (sampleHeader 2 16 356) = some n :=
  C3_validated_no_divzero (sampleHeader 2 16 356) (by decide) (by decide) (by decide)

/-! ## C4: Validate's checks, their order, and its errors -/

/-- C4: Validate returns ok exactly when all eight conditions hold, and
otherwise returns, for the first failing check in source order, the
distinct error naming that field with its expected and actual values. -/
theorem C4_validate_spec (h : Header) :
    (h.Validate = none ↔
      (h.RiffID = riffBytes ∧ h.RiffType = waveBytes ∧ h.FmtChunkID = fmtBytes ∧
        h.DataChunkID = dataBytes ∧ h.FmtChunkSize = 16 ∧
        h.DataSize = (36 + h.DataChunkSize) % 4294967296 ∧ h.AudioFmt = 1 ∧
        (h.BitsPerSample = 8 ∨ h.BitsPerSample = 16 ∨ h.BitsPerSample = 24 ∨
          h.BitsPerSample = 32))) ∧
    (h.RiffID ≠ riffBytes → h.Validate = some (.riffID riffBytes h.RiffID)) ∧
    (h.RiffID = riffBytes → h.RiffType ≠ waveBytes →
      h.Validate = some (.riffType waveBytes h.RiffType)) ∧
    (h.RiffID = riffBytes → h.RiffType = waveBytes → h.FmtChunkID ≠ fmtBytes →
      h.Validate = some (.fmtChunkID fmtBytes h.FmtChunkID)) ∧
    (h.RiffID = riffBytes → h.RiffType = waveBytes → h.FmtChunkID = fmtBytes →
      h.DataChunkID ≠ dataBytes →
      h.Validate = some (.dataChunkID dataBytes h.DataChunkID)) ∧
    (h.RiffID = riffBytes → h.RiffType = waveBytes → h.FmtChunkID = fmtBytes →
      h.DataChunkID = dataBytes → h.FmtChunkSize ≠ 16 →
      h.Validate = some (.fmtChunkSize 16 h.FmtChunkSize)) ∧
    (h.RiffID = riffBytes → h.RiffType = waveBytes → h.FmtChunkID = fmtBytes →
      h.DataChunkID = dataBytes → h.FmtChunkSize = 16 →
      h.DataSize ≠ (36 + h.DataChunkSize) % 4294967296 →
      h.Validate = some (.dataSize ((36 + h.DataChunkSize) % 4294967296) h.DataSize)) ∧
    (h.RiffID = riffBytes → h.RiffType = waveBytes → h.FmtChunkID = fmtBytes →
      h.DataChunkID = dataBytes → h.FmtChunkSize = 16 →
      h.DataSize = (36 + h.DataChunkSize) % 4294967296 → h.AudioFmt ≠ 1 →
      h.Validate = some (.audioFmt h.AudioFmt)) ∧
    (h.RiffID = riffBytes → h.RiffType = waveBytes → h.FmtChunkID = fmtBytes →
      h.DataChunkID = dataBytes → h.FmtChunkSize = 16 →
      h.DataSize = (36 + h.DataChunkSize) % 4294967296 → h.AudioFmt = 1 →
      ¬(h.BitsPerSample = 8 ∨ h.BitsPerSample = 16 ∨ h.BitsPerSample = 24 ∨
        h.BitsPerSample = 32) →
      h.Validate = some (.bitsPerSample h.BitsPerSample)) := by
  refine ⟨Validate_none_iff h, ?_, ?_, ?_, ?_, ?_, ?_, ?_, ?_⟩ <;>
    intros <;> unfold Header.Validate byte4Cmp <;>
    simp_all [beq_iff_eq]

/-! ## C5: 24-bit integer decoding -/

/-- A valid mono 24-bit header for the C5 witness. -/
def hdr24 : Header := sampleHeader 1 24 3

/-- C5: with bitsPerSample = 24, each channel decodes three bytes as an
unsigned 16-bit little-endian low part and a signed 8-bit high part,
combined as high·2^16 + low; the bytes [0x00,0x00,0xFF] decode to -65536
and [0xFF,0xFF,0x00] to 65535. -/
theorem C5_read24 (h : Header) (hb : h.BitsPerSample = 24) (b0 b1 b2 : Nat)
    (s : List Nat) :
    readSample h.BitsPerSample (b0 :: b1 :: b2 :: s) =
      .ok (toInt8 b2 * 65536 + ((b0 + 256 * b1 : Nat) : Int), s) ∧
    (h.Channels = 1 →
      ReadInt h [0, 0, 255] = .ok ([-65536], []) ∧
      ReadInt h [255, 255, 0] = .ok ([65535], [])) := by
  constructor
  · rw [hb]
    unfold readSample
    norm_num [readBytes, leVal]
  · intro hc
    constructor <;> (unfold ReadInt; rw [hb, hc]; decide)

/-- C5 witness: the two documented decodings on a concrete 24-bit reader. -/
theorem C5_witness :
    ReadInt hdr24 [0, 0, 255] = .ok ([-65536], []) ∧
    ReadInt hdr24 [255, 255, 0] = .ok ([65535], []) :=
  (C5_read24 hdr24 rfl 0 0 255 []).2 rfl

/-! ## C6: WriteInt's precondition checks and their order -/

/-- C6: WriteInt checks the frame length first (ChannelCountMismatch),
then the frame budget (FrameBudgetExceeded, before any bytes reach the
sink — the sink comes back unchanged), then the encoding: a bits-per-
sample outside {8,16,32}, in particular 24, fails with
UnsupportedEncoding. WriteFloat performs the same first two checks, so
after frameCount successful writes every further write fails with
FrameBudgetExceeded. -/
theorem C6_writeInt_checks (w : WaveWriter) (k : Sink) (xs : List Int)
    (fs : List Nat) :
    (xs.length ≠ w.H.Channels →
      WriteInt w k xs = (some (.channelCountMismatch w.H.Channels xs.length), w, k)) ∧
    (xs.length = w.H.Channels → w.ctr + 1 > w.numSamples →
      WriteInt w k xs = (some (.frameBudgetExceeded w.ctr), w, k)) ∧
    (xs.length = w.H.Channels → w.ctr + 1 ≤ w.numSamples →
      w.H.BitsPerSample ≠ 8 → w.H.BitsPerSample ≠ 16 → w.H.BitsPerSample ≠ 32 →
      WriteInt w k xs = (some (.unsupportedEncoding w.H.BitsPerSample), w, k)) ∧
    (xs.length = w.H.Channels → w.ctr + 1 ≤ w.numSamples →
      w.H.BitsPerSample = 24 →
      WriteInt w k xs = (some (.unsupportedEncoding 24), w, k)) ∧
    (fs.length ≠ w.H.Channels →
      WriteFloat w k fs = (some (.channelCountMismatch w.H.Channels fs.length), w, k)) ∧
    (fs.length = w.H.Channels → w.ctr + 1 > w.numSamples →
      WriteFloat w k fs = (some (.frameBudgetExceeded w.ctr), w, k)) := by
  refine ⟨?_, ?_, ?_, ?_, ?_, ?_⟩ <;>
    (intros; simp only [WriteInt, WriteFloat]; split_ifs) <;>
    first
    | rfl
    | omega
    | simp_all

/-! ## C7: the counter is the only writer state a write call changes -/

/-- C7: a successful WriteInt or WriteFloat returns the writer with `ctr`
incremented by exactly one and every other field unchanged; every failing
call returns the writer exactly as it was. -/
theorem C7_ctr_frame (w : WaveWriter) (k : Sink) (xs : List Int)
    (fs : List Nat) :
    ((WriteInt w k xs).1 = none →
      (WriteInt w k xs).2.1 = { w with ctr := w.ctr + 1 }) ∧
    ((WriteInt w k xs).1 ≠ none → (WriteInt w k xs).2.1 = w) ∧
    ((WriteFloat w k fs).1 = none →
      (WriteFloat w k fs).2.1 = { w with ctr := w.ctr + 1 }) ∧
    ((WriteFloat w k fs).1 ≠ none → (WriteFloat w k fs).2.1 = w) := by
  refine ⟨?_, ?_, ?_, ?_⟩
  · simp only [WriteInt]
    split_ifs <;>
      first
      | (simp; done)
      | (cases hk : Sink.write k (frameBytes w.H.BitsPerSample xs) <;> simp [hk])
  · simp only [WriteInt]
    split_ifs <;>
      first
      | (simp; done)
      | (cases hk : Sink.write k (frameBytes w.H.BitsPerSample xs) <;> simp [hk])
  · simp only [WriteFloat]
    split_ifs <;>
      first
      | (simp; done)
      | (cases hk : Sink.write k ((fs.map le32).flatten) <;> simp [hk])
  · simp only [WriteFloat]
    split_ifs <;>
      first
      | (simp; done)
      | (cases hk : Sink.write k ((fs.map le32).flatten) <;> simp [hk])

/-! ## C8: whole-frame failure on truncation -/

lemma readSample_cases (bps : Nat)
    (hb : bps = 8 ∨ bps = 16 ∨ bps = 24 ∨ bps = 32) (s : List Nat) :
    (bps / 8 ≤ s.length ∧
      ∃ v, readSample bps s = .ok (v, s.drop (bps / 8))) ∨
    (s.length < bps / 8 ∧ readSample bps s = .error .truncatedStream) := by
  rcases hb with rfl | rfl | rfl | rfl
  · by_cases hl : 1 ≤ s.length
    · refine Or.inl ⟨hl, toInt8 (leVal (s.take 1)), ?_⟩
      simp [readSample, readBytes, hl]
    · refine Or.inr ⟨by omega, ?_⟩
      simp [readSample, readBytes, hl]
  · by_cases hl : 2 ≤ s.length
    · refine Or.inl ⟨hl, toInt16 (leVal (s.take 2)), ?_⟩
      simp [readSample, readBytes, hl]
    · refine Or.inr ⟨by omega, ?_⟩
      simp [readSample, readBytes, hl]
  · by_cases hl : 3 ≤ s.length
    · have h2 : 2 ≤ s.length := by omega
      have h1 : 1 ≤ s.length - 2 := by omega
      refine Or.inl ⟨hl,
        toInt8 (leVal ((s.drop 2).take 1)) * 65536 + (leVal (s.take 2) : Int), ?_⟩
      simp [readSample, readBytes, h2, h1, List.drop_drop]
    · by_cases h2 : 2 ≤ s.length
      · have h1 : ¬1 ≤ s.length - 2 := by omega
        refine Or.inr ⟨by omega, ?_⟩
        simp [readSample, readBytes, h2, h1]
      · refine Or.inr ⟨by omega, ?_⟩
        simp [readSample, readBytes, h2]
  · by_cases hl : 4 ≤ s.length
    · refine Or.inl ⟨hl, toInt32 (leVal (s.take 4)), ?_⟩
      simp [readSample, readBytes, hl]
    · refine Or.inr ⟨by omega, ?_⟩
      simp [readSample, readBytes, hl]

lemma readFrame_cases (bps : Nat)
    (hb : bps = 8 ∨ bps = 16 ∨ bps = 24 ∨ bps = 32) :
    ∀ (c : Nat) (s : List Nat),
    (c * (bps / 8) ≤ s.length ∧
      ∃ fr, readFrameAux bps c s = .ok (fr, s.drop (c * (bps / 8))) ∧
        fr.length = c) ∨
    (s.length < c * (bps / 8) ∧ readFrameAux bps c s = .error .truncatedStream)
  | 0, s => Or.inl ⟨by simp, [], by simp [readFrameAux], rfl⟩
  | c + 1, s => by
    have hd : 1 ≤ bps / 8 := by rcases hb with rfl | rfl | rfl | rfl <;> simp
    rcases readSample_cases bps hb s with ⟨hle, v, hv⟩ | ⟨hlt, hv⟩
    · rcases readFrame_cases bps hb c (s.drop (bps / 8)) with
        ⟨hle2, fr, hfr, hlen⟩ | ⟨hlt2, hfr⟩
      · refine Or.inl ⟨?_, v :: fr, ?_, by simp [hlen]⟩
        · have : (s.drop (bps / 8)).length = s.length - bps / 8 := by simp
          have hcc : (c + 1) * (bps / 8) = c * (bps / 8) + bps / 8 :=
            Nat.succ_mul c (bps / 8)
          omega
        · have hdd : (s.drop (bps / 8)).drop (c * (bps / 8)) =
              s.drop ((c + 1) * (bps / 8)) := by
            rw [List.drop_drop, Nat.succ_mul, Nat.add_comm (bps / 8) (c * (bps / 8))]
          simp [readFrameAux, hv, hfr, hdd]
      · refine Or.inr ⟨?_, by simp [readFrameAux, hv, hfr]⟩
        have : (s.drop (bps / 8)).length = s.length - bps / 8 := by simp
        have hcc : (c + 1) * (bps / 8) = c * (bps / 8) + bps / 8 :=
          Nat.succ_mul c (bps / 8)
        omega
    · refine Or.inr ⟨?_, by simp [readFrameAux, hv]⟩
      have hcc : (c + 1) * (bps / 8) = c * (bps / 8) + bps / 8 :=
        Nat.succ_mul c (bps / 8)
      omega

/-- C8: on a header whose bits-per-sample is one of {8,16,24,32}, a
ReadInt call either succeeds with a frame of exactly `channels` samples,
consuming `channels × bitsPerSample/8` bytes, or — whenever any channel's
decode runs off the end of the stream — fails whole with TruncatedStream
and returns no partial frame. -/
theorem C8_readInt_frame (h : Header)
    (hb : h.BitsPerSample = 8 ∨ h.BitsPerSample = 16 ∨ h.BitsPerSample = 24 ∨
      h.BitsPerSample = 32) (s : List Nat) :
    (∀ fr rest, ReadInt h s = .ok (fr, rest) →
      fr.length = h.Channels ∧
        rest = s.drop (h.Channels * (h.BitsPerSample / 8))) ∧
    (∀ e, ReadInt h s = .error e →
      e = .truncatedStream ∧
        s.length < h.Channels * (h.BitsPerSample / 8)) := by
  rcases readFrame_cases h.BitsPerSample hb h.Channels s with
    ⟨hle, fr, hfr, hlen⟩ | ⟨hlt, hfr⟩ <;>
    (unfold ReadInt; constructor <;> intros <;> simp_all)

/-- C8 witness: a concrete mono 16-bit reader. -/
theorem C8_witness :
    (∀ fr rest, ReadInt (sampleHeader 1 16 2) [7, 0] = .ok (fr, rest) →
      fr.length = (sampleHeader 1 16 2).Channels ∧
        rest = [7, 0].drop ((sampleHeader 1 16 2).Channels *
          ((sampleHeader 1 16 2).BitsPerSample / 8))) ∧
    (∀ e, ReadInt (sampleHeader 1 16 2) [7, 0] = .error e →
      e = .truncatedStream ∧
        [7, 0].length < (sampleHeader 1 16 2).Channels *
          ((sampleHeader 1 16 2).BitsPerSample / 8)) :=
  C8_readInt_frame (sampleHeader 1 16 2) (Or.inr (Or.inl rfl)) [7, 0]

/-! ## C9: ReadFloat -/

lemma flatten_map_le32_length (f : List Nat) :
    ((f.map le32).flatten).length = 4 * f.length := by
  induction f with
  | nil => simp
  | cons x f ih => simp [le32, ih]; omega

lemma chunk4_flatten_map_le32 (f : List Nat) (hf : ∀ x ∈ f, x < 4294967296) :
    chunk4 ((f.map le32).flatten) = f := by
  induction f with
  | nil => rfl
  | cons x f ih =>
    have hx : x < 4294967296 := hf x (List.mem_cons_self x f)
    have hrest : ∀ y ∈ f, y < 4294967296 := fun y hy => hf y (List.mem_cons_of_mem x hy)
    show chunk4 (le32 x ++ (f.map le32).flatten) = x :: f
    have hv : leVal [x % 256, x / 256 % 256, x / 65536 % 256, x / 16777216 % 256] = x := by
      simp [leVal]; omega
    simp only [le32, List.cons_append, List.nil_append, chunk4, hv]
    simp [ih hrest]

/-- C9: ReadFloat on a header whose bits-per-sample is not 32 fails with
UnsupportedEncoding and leaves the stream exactly as it was (no bytes
consumed); with bits-per-sample 32 it decodes one little-endian 32-bit
float (binary32 pattern, widened exactly) per channel, returning a
sequence of length channels and consuming 4 bytes per channel. -/
theorem C9_readFloat_spec (h : Header) (s : List Nat) :
    (h.BitsPerSample ≠ 32 →
      ReadFloat h s = (.error (.unsupportedEncoding h.BitsPerSample), s)) ∧
    (h.BitsPerSample = 32 → ∀ (f : List Nat) (t : List Nat),
      f.length = h.Channels → (∀ x ∈ f, x < 4294967296) →
      ReadFloat h ((f.map le32).flatten ++ t) = (.ok f, t)) := by
  constructor
  · intro hb
    simp [ReadFloat, hb]
  · intro hb f t hlen hf
    have hl : ((f.map le32).flatten).length = 4 * h.Channels := by
      rw [flatten_map_le32_length, hlen]
    rw [ReadFloat, if_neg (by simp [hb]), readBytes_append t hl]
    simp [chunk4_flatten_map_le32 f hf]

/-! ## C10: NewWriter builds, serializes and writes the header first -/

lemma encodeHeader_length (h : Header) (h1 : h.RiffID.length = 4)
    (h2 : h.RiffType.length = 4) (h3 : h.FmtChunkID.length = 4)
    (h4 : h.DataChunkID.length = 4) : (encodeHeader h).length = 44 := by
  simp [encodeHeader, le16, le32, h1, h2, h3, h4]

/-- C10: NewWriter derives dataChunkSize = frameCount×channels×bits/8,
dataSize = 36+dataChunkSize, bytesPerSec = samplesPerSec×channels×bits/8
and blockAlign = channels×bits/8 (exactly these values whenever they fit
their uint32/uint16 fields), serializes the header little-endian in the
fixed 44-byte order, appends it to the sink before any frame data, and
fails construction — returning no writer — when the sink write fails. -/
theorem C10_newWriter_spec (k : Sink) (c sps b n : Nat)
    (hc : c < 65536) (hsps : sps < 4294967296) (hb : b < 65536)
    (hdcs : n * c * b / 8 < 4294967296)
    (hds : 36 + n * c * b / 8 < 4294967296)
    (hbps : sps * c * b / 8 < 4294967296)
    (hba : c * b / 8 < 65536) :
    (∀ w k2, NewWriter k c sps b n = some (w, k2) →
      w.H.DataChunkSize = n * c * b / 8 ∧
      w.H.DataSize = 36 + n * c * b / 8 ∧
      w.H.BytesPerSec = sps * c * b / 8 ∧
      w.H.BlockAlign = c * b / 8 ∧
      w.H.Channels = c ∧ w.H.SamplesPerSec = sps ∧ w.H.BitsPerSample = b ∧
      w.ctr = 0 ∧ w.numSamples = n ∧
      k2.out = k.out ++ encodeHeader w.H ∧ (encodeHeader w.H).length = 44) ∧
    (k.write (encodeHeader (mkWriterHeader c sps b n)) = none →
      NewWriter k c sps b n = none) := by
  have hfields : (mkWriterHeader c sps b n).DataChunkSize = n * c * b / 8 ∧
      (mkWriterHeader c sps b n).DataSize = 36 + n * c * b / 8 ∧
      (mkWriterHeader c sps b n).BytesPerSec = sps * c * b / 8 ∧
      (mkWriterHeader c sps b n).BlockAlign = c * b / 8 ∧
      (mkWriterHeader c sps b n).Channels = c ∧
      (mkWriterHeader c sps b n).SamplesPerSec = sps ∧
      (mkWriterHeader c sps b n).BitsPerSample = b := by
    refine ⟨?_, ?_, ?_, ?_, ?_, ?_, ?_⟩ <;>
      simp [mkWriterHeader] <;> omega
  constructor
  · intro w k2 hw
    rcases hk : k.write (encodeHeader (mkWriterHeader c sps b n)) with - | k3
    · simp only [NewWriter, hk] at hw
      exact absurd hw (by simp)
    · simp only [NewWriter, hk, Option.some.injEq, Prod.mk.injEq] at hw
      obtain ⟨hw1, hw2⟩ := hw
      subst hw2
      have hH : w.H = mkWriterHeader c sps b n := by rw [← hw1]
      have hctr : w.ctr = 0 := by rw [← hw1]
      have hns : w.numSamples = n := by rw [← hw1]
      have hout : k3.out = k.out ++ encodeHeader (mkWriterHeader c sps b n) := by
        unfold Sink.write at hk
        rcases hcap : k.cap with - | cap <;> rw [hcap] at hk
        · simp at hk; rw [← hk]
        · by_cases hfit : (encodeHeader (mkWriterHeader c sps b n)).length ≤ cap
          · simp [hfit] at hk; rw [← hk]
          · simp [hfit] at hk
      rw [hH]
      refine ⟨hfields.1, hfields.2.1, hfields.2.2.1, hfields.2.2.2.1,
        hfields.2.2.2.2.1, hfields.2.2.2.2.2.1, hfields.2.2.2.2.2.2,
        hctr, hns, hout, ?_⟩
      exact encodeHeader_length _ rfl rfl rfl rfl
  · intro hk
    simp only [NewWriter, hk]

/-- C10 witness: concrete success (unbounded sink) and failure (sink too
small for the 44-byte header) of NewWriter at channels = 2,
samplesPerSec = 44100, bitsPerSample = 16, frameCount = 89. -/
theorem C10_witness :
    (∀ w k2, NewWriter { out := [], cap := some 10 } 2 44100 16 89 = some (w, k2) →
      w.H.DataChunkSize = 89 * 2 * 16 / 8 ∧
      w.H.DataSize = 36 + 89 * 2 * 16 / 8 ∧
      w.H.BytesPerSec = 44100 * 2 * 16 / 8 ∧
      w.H.BlockAlign = 2 * 16 / 8 ∧
      w.H.Channels = 2 ∧ w.H.SamplesPerSec = 44100 ∧ w.H.BitsPerSample = 16 ∧
      w.ctr = 0 ∧ w.numSamples = 89 ∧
      k2.out = Sink.out { out := [], cap := some 10 } ++ encodeHeader w.H ∧
      (encodeHeader w.H).length = 44) ∧
    (Sink.write { out := [], cap := some 10 }
        (encodeHeader (mkWriterHeader 2 44100 16 89)) = none →
      NewWriter { out := [], cap := some 10 } 2 44100 16 89 = none) :=
  C10_newWriter_spec { out := [], cap := some 10 } 2 44100 16 89 (by decide)
    (by decide) (by decide) (by decide) (by decide) (by decide) (by decide)

/-! ## Round-trip lemmas -/

lemma readSample8 (x : Nat) (t : List Nat) :
    readSample 8 (x :: t) = .ok (toInt8 x, t) := by
  simp [readSample, readBytes, leVal]

lemma readSample16 (x0 x1 : Nat) (t : List Nat) :
    readSample 16 (x0 :: x1 :: t) = .ok (toInt16 (x0 + 256 * x1), t) := by
  simp [readSample, readBytes, leVal]

lemma readSample32 (x0 x1 x2 x3 : Nat) (t : List Nat) :
    readSample 32 (x0 :: x1 :: x2 :: x3 :: t) =
      .ok (toInt32 (x0 + 256 * (x1 + 256 * (x2 + 256 * x3))), t) := by
  simp [readSample, readBytes, leVal]

lemma toInt8_emod (v : Int) (hlo : -128 ≤ v) (hhi : v < 128) :
    toInt8 ((v % 256).toNat) = v := by
  have hcast : (((v % 256).toNat : Nat) : Int) = v % 256 :=
    Int.toNat_of_nonneg (Int.emod_nonneg v (by norm_num))
  unfold toInt8
  split_ifs <;> omega

lemma toInt16_emod (v : Int) (hlo : -32768 ≤ v) (hhi : v < 32768) :
    toInt16 ((v % 65536).toNat) = v := by
  have hcast : (((v % 65536).toNat : Nat) : Int) = v % 65536 :=
    Int.toNat_of_nonneg (Int.emod_nonneg v (by norm_num))
  unfold toInt16
  split_ifs <;> omega

lemma toInt32_emod (v : Int) (hlo : -2147483648 ≤ v) (hhi : v < 2147483648) :
    toInt32 ((v % 4294967296).toNat) = v := by
  have hcast : (((v % 4294967296).toNat : Nat) : Int) = v % 4294967296 :=
    Int.toNat_of_nonneg (Int.emod_nonneg v (by norm_num))
  unfold toInt32
  split_ifs <;> omega

lemma readSample_intBytes (b : Nat) (hb : b = 8 ∨ b = 16 ∨ b = 32) (v : Int)
    (hlo : -(2 ^ (b - 1) : Int) ≤ v) (hhi : v < 2 ^ (b - 1)) (t : List Nat) :
    readSample b (intBytes b v ++ t) = .ok (v, t) := by
  rcases hb with rfl | rfl | rfl
  · norm_num at hlo hhi
    show readSample 8 ((v % 256).toNat :: t) = .ok (v, t)
    rw [readSample8, toInt8_emod v hlo hhi]
  · norm_num at hlo hhi
    show readSample 16 ((v % 65536).toNat % 256 ::
      (v % 65536).toNat / 256 % 256 :: t) = .ok (v, t)
    rw [readSample16]
    have hx : (v % 65536).toNat % 256 +
        256 * ((v % 65536).toNat / 256 % 256) = (v % 65536).toNat := by
      have : (v % 65536).toNat < 65536 := by omega
      omega
    rw [hx, toInt16_emod v hlo hhi]
  · norm_num at hlo hhi
    show readSample 32 ((v % 4294967296).toNat % 256 ::
      (v % 4294967296).toNat / 256 % 256 ::
      (v % 4294967296).toNat / 65536 % 256 ::
      (v % 4294967296).toNat / 16777216 % 256 :: t) = .ok (v, t)
    rw [readSample32]
    have hx : (v % 4294967296).toNat % 256 +
        256 * ((v % 4294967296).toNat / 256 % 256 +
          256 * ((v % 4294967296).toNat / 65536 % 256 +
            256 * ((v % 4294967296).toNat / 16777216 % 256))) =
        (v % 4294967296).toNat := by
      have : (v % 4294967296).toNat < 4294967296 := by omega
      omega
    rw [hx, toInt32_emod v hlo hhi]

lemma frameBytes_cons (b : Nat) (v : Int) (f : List Int) :
    frameBytes b (v :: f) = intBytes b v ++ frameBytes b f := by
  simp [frameBytes]

lemma readFrame_frameBytes (b : Nat) (hb : b = 8 ∨ b = 16 ∨ b = 32)
    (f : List Int)
    (hf : ∀ v ∈ f, -(2 ^ (b - 1) : Int) ≤ v ∧ v < 2 ^ (b - 1)) (t : List Nat) :
    readFrameAux b f.length (frameBytes b f ++ t) = .ok (f, t) := by
  induction f with
  | nil => simp [frameBytes, readFrameAux]
  | cons v f ih =>
    have hv := hf v (List.mem_cons_self v f)
    have hrest : ∀ u ∈ f, -(2 ^ (b - 1) : Int) ≤ u ∧ u < 2 ^ (b - 1) :=
      fun u hu => hf u (List.mem_cons_of_mem v hu)
    rw [frameBytes_cons, List.append_assoc]
    show readFrameAux b (f.length + 1) _ = _
    simp [readFrameAux, readSample_intBytes b hb v hv.1 hv.2, ih hrest]

lemma readAllInt_frames (h : Header)
    (hb : h.BitsPerSample = 8 ∨ h.BitsPerSample = 16 ∨ h.BitsPerSample = 32)
    (frames : List (List Int))
    (hwf : ∀ f ∈ frames, f.length = h.Channels ∧
      ∀ v ∈ f, -(2 ^ (h.BitsPerSample - 1) : Int) ≤ v ∧
        v < 2 ^ (h.BitsPerSample - 1)) (t : List Nat) :
    readAllInt h frames.length
      ((frames.map (frameBytes h.BitsPerSample)).flatten ++ t) = .ok (frames, t) := by
  induction frames with
  | nil => simp [readAllInt]
  | cons f fs ih =>
    have hf := hwf f (List.mem_cons_self f fs)
    have hrest : ∀ g ∈ fs, g.length = h.Channels ∧
        ∀ v ∈ g, -(2 ^ (h.BitsPerSample - 1) : Int) ≤ v ∧
          v < 2 ^ (h.BitsPerSample - 1) :=
      fun g hg => hwf g (List.mem_cons_of_mem f hg)
    have hread : ReadInt h (frameBytes h.BitsPerSample f ++
        ((fs.map (frameBytes h.BitsPerSample)).flatten ++ t)) =
        .ok (f, (fs.map (frameBytes h.BitsPerSample)).flatten ++ t) := by
      unfold ReadInt
      rw [← hf.1]
      exact readFrame_frameBytes h.BitsPerSample hb f hf.2 _
    show readAllInt h (fs.length + 1) _ = _
    simp only [List.map_cons, List.flatten_cons, List.append_assoc]
    simp [readAllInt, hread, ih hrest]

lemma WriteInt_ok (w : WaveWriter) (out : List Nat) (f : List Int)
    (hlen : f.length = w.H.Channels) (hctr : w.ctr + 1 ≤ w.numSamples)
    (hb : w.H.BitsPerSample = 8 ∨ w.H.BitsPerSample = 16 ∨
      w.H.BitsPerSample = 32) :
    WriteInt w { out := out, cap := none } f =
      (none, { w with ctr := w.ctr + 1 },
        { out := out ++ frameBytes w.H.BitsPerSample f, cap := none }) := by
  simp only [WriteInt]
  rw [if_neg (by simp [hlen]), if_neg (by omega), if_pos hb]
  simp [Sink.write]

lemma writeAllInt_ok (frames : List (List Int)) :
    ∀ (w : WaveWriter) (out : List Nat),
    (∀ f ∈ frames, f.length = w.H.Channels) →
    w.ctr + frames.length ≤ w.numSamples →
    (w.H.BitsPerSample = 8 ∨ w.H.BitsPerSample = 16 ∨
      w.H.BitsPerSample = 32) →
    writeAllInt w { out := out, cap := none } frames =
      (none, { w with ctr := w.ctr + frames.length },
        { out := out ++ (frames.map (frameBytes w.H.BitsPerSample)).flatten,
          cap := none }) := by
  induction frames with
  | nil => intro w out _ _ _; simp [writeAllInt]
  | cons f fs ih =>
    intro w out hlen hctr hb
    have hf := hlen f (List.mem_cons_self f fs)
    have hstep := WriteInt_ok w out f hf (by simp at hctr; omega) hb
    have hrest := ih { w with ctr := w.ctr + 1 }
      (out ++ frameBytes w.H.BitsPerSample f)
      (fun g hg => hlen g (List.mem_cons_of_mem f hg))
      (by simp at hctr ⊢; omega) hb
    show writeAllInt w { out := out, cap := none } (f :: fs) = _
    simp only [writeAllInt, hstep, hrest]
    simp [List.append_assoc]
    omega

lemma ReadFloat_flatten (h : Header) (hb : h.BitsPerSample = 32)
    (f : List Nat) (hlen : f.length = h.Channels)
    (hf : ∀ x ∈ f, x < 4294967296) (t : List Nat) :
    ReadFloat h ((f.map le32).flatten ++ t) = (.ok f, t) := by
  have hl : ((f.map le32).flatten).length = 4 * h.Channels := by
    rw [flatten_map_le32_length, hlen]
  rw [ReadFloat, if_neg (by simp [hb]), readBytes_append t hl]
  simp [chunk4_flatten_map_le32 f hf]

lemma readAllFloat_frames (h : Header) (hb : h.BitsPerSample = 32)
    (frames : List (List Nat))
    (hwf : ∀ f ∈ frames, f.length = h.Channels ∧ ∀ x ∈ f, x < 4294967296)
    (t : List Nat) :
    readAllFloat h frames.length
      ((frames.map (fun f => (f.map le32).flatten)).flatten ++ t) =
      .ok (frames, t) := by
  induction frames with
  | nil => simp [readAllFloat]
  | cons f fs ih =>
    have hf := hwf f (List.mem_cons_self f fs)
    have hrest : ∀ g ∈ fs, g.length = h.Channels ∧ ∀ x ∈ g, x < 4294967296 :=
      fun g hg => hwf g (List.mem_cons_of_mem f hg)
    have hread := ReadFloat_flatten h hb f hf.1 hf.2
      ((fs.map (fun g => (g.map le32).flatten)).flatten ++ t)
    show readAllFloat h (fs.length + 1) _ = _
    simp only [List.map_cons, List.flatten_cons, List.append_assoc]
    simp [readAllFloat, hread, ih hrest]

lemma WriteFloat_ok (w : WaveWriter) (out : List Nat) (f : List Nat)
    (hlen : f.length = w.H.Channels) (hctr : w.ctr + 1 ≤ w.numSamples)
    (hb : w.H.BitsPerSample = 32) :
    WriteFloat w { out := out, cap := none } f =
      (none, { w with ctr := w.ctr + 1 },
        { out := out ++ (f.map le32).flatten, cap := none }) := by
  simp only [WriteFloat]
  rw [if_neg (by simp [hlen]), if_neg (by omega), if_neg (by simp [hb])]
  simp [Sink.write]

lemma writeAllFloat_ok (frames : List (List Nat)) :
    ∀ (w : WaveWriter) (out : List Nat),
    (∀ f ∈ frames, f.length = w.H.Channels) →
    w.ctr + frames.length ≤ w.numSamples → w.H.BitsPerSample = 32 →
    writeAllFloat w { out := out, cap := none } frames =
      (none, { w with ctr := w.ctr + frames.length },
        { out := out ++ (frames.map (fun f => (f.map le32).flatten)).flatten,
          cap := none }) := by
  induction frames with
  | nil => intro w out _ _ _; simp [writeAllFloat]
  | cons f fs ih =>
    intro w out hlen hctr hb
    have hf := hlen f (List.mem_cons_self f fs)
    have hstep := WriteFloat_ok w out f hf (by simp at hctr; omega) hb
    have hrest := ih { w with ctr := w.ctr + 1 } (out ++ (f.map le32).flatten)
      (fun g hg => hlen g (List.mem_cons_of_mem f hg))
      (by simp at hctr ⊢; omega) hb
    show writeAllFloat w { out := out, cap := none } (f :: fs) = _
    simp only [writeAllFloat, hstep, hrest]
    simp [List.append_assoc]
    omega

lemma readBytes_le32 (x : Nat) (t : List Nat) :
    readBytes 4 (le32 x ++ t) = some (le32 x, t) :=
  readBytes_append t (le32_length x)

lemma readBytes_le16 (x : Nat) (t : List Nat) :
    readBytes 2 (le16 x ++ t) = some (le16 x, t) :=
  readBytes_append t (le16_length x)

lemma decodeHeader_encodeHeader (h : Header) (t : List Nat)
    (h1 : h.RiffID.length = 4) (h2 : h.RiffType.length = 4)
    (h3 : h.FmtChunkID.length = 4) (h4 : h.DataChunkID.length = 4)
    (hds : h.DataSize < 4294967296) (hfcs : h.FmtChunkSize < 4294967296)
    (haf : h.AudioFmt < 65536) (hch : h.Channels < 65536)
    (hsps : h.SamplesPerSec < 4294967296) (hxps : h.BytesPerSec < 4294967296)
    (hba : h.BlockAlign < 65536) (hbits : h.BitsPerSample < 65536)
    (hdcs : h.DataChunkSize < 4294967296) :
    decodeHeader (encodeHeader h ++ t) = some (h, t) := by
  have r1 : ∀ u, readBytes 4 (h.RiffID ++ u) = some (h.RiffID, u) :=
    fun u => readBytes_append u h1
  have r2 : ∀ u, readBytes 4 (h.RiffType ++ u) = some (h.RiffType, u) :=
    fun u => readBytes_append u h2
  have r3 : ∀ u, readBytes 4 (h.FmtChunkID ++ u) = some (h.FmtChunkID, u) :=
    fun u => readBytes_append u h3
  have r4 : ∀ u, readBytes 4 (h.DataChunkID ++ u) = some (h.DataChunkID, u) :=
    fun u => readBytes_append u h4
  simp [decodeHeader, encodeHeader, List.append_assoc, r1, r2, r3, r4,
    readBytes_le32, readBytes_le16, bind, Option.bind, leVal_le32,
    leVal_le16, Nat.mod_eq_of_lt hds, Nat.mod_eq_of_lt hfcs,
    Nat.mod_eq_of_lt haf, Nat.mod_eq_of_lt hch, Nat.mod_eq_of_lt hsps,
    Nat.mod_eq_of_lt hxps, Nat.mod_eq_of_lt hba, Nat.mod_eq_of_lt hbits,
    Nat.mod_eq_of_lt hdcs]

lemma mkWriterHeader_decode (c sps b n : Nat) (t : List Nat) :
    decodeHeader (encodeHeader (mkWriterHeader c sps b n) ++ t) =
      some (mkWriterHeader c sps b n, t) := by
  refine decodeHeader_encodeHeader _ t rfl rfl rfl rfl ?_ ?_ ?_ ?_ ?_ ?_ ?_ ?_ ?_ <;>
    simp [mkWriterHeader] <;> omega

lemma mkWriterHeader_validate (c sps b n : Nat)
    (hb : b % 65536 = 8 ∨ b % 65536 = 16 ∨ b % 65536 = 24 ∨ b % 65536 = 32) :
    (mkWriterHeader c sps b n).Validate = none :=
  (Validate_none_iff _).mpr ⟨rfl, rfl, rfl, rfl, rfl, rfl, rfl, hb⟩

lemma mkWriterHeader_channels (c sps b n : Nat) (hc : c < 65536) :
    (mkWriterHeader c sps b n).Channels = c := by
  simp [mkWriterHeader]
  omega

lemma mkWriterHeader_bits (c sps b n : Nat) (hb : b < 65536) :
    (mkWriterHeader c sps b n).BitsPerSample = b := by
  simp [mkWriterHeader]
  omega

lemma mkWriterHeader_sps (c sps b n : Nat) (hs : sps < 4294967296) :
    (mkWriterHeader c sps b n).SamplesPerSec = sps := by
  simp [mkWriterHeader]
  omega

lemma bits_div8 (b : Nat) (hb : b = 8 ∨ b = 16 ∨ b = 32) : 1 ≤ b / 8 := by
  rcases hb with rfl | rfl | rfl <;> norm_num

lemma chan_lt (c b : Nat) (hb : b = 8 ∨ b = 16 ∨ b = 32)
    (hfit : c * (b / 8) < 65536) : c < 65536 :=
  calc c = c * 1 := (Nat.mul_one c).symm
  _ ≤ c * (b / 8) := Nat.mul_le_mul_left c (bits_div8 b hb)
  _ < 65536 := hfit

lemma dataBytesCount (c b n : Nat) (hb : b = 8 ∨ b = 16 ∨ b = 32) :
    n * c * b / 8 = n * (c * (b / 8)) := by
  rcases hb with rfl | rfl | rfl
  · have h8 : n * c * 8 = n * (c * 1) * 8 := by ring
    rw [h8, Nat.mul_div_cancel _ (by norm_num : (0 : Nat) < 8)]
  · have h8 : n * c * 16 = n * (c * 2) * 8 := by ring
    rw [h8, Nat.mul_div_cancel _ (by norm_num : (0 : Nat) < 8)]
  · have h8 : n * c * 32 = n * (c * 4) * 8 := by ring
    rw [h8, Nat.mul_div_cancel _ (by norm_num : (0 : Nat) < 8)]

lemma mkWriterHeader_sampleCount (c sps b n : Nat) (hc : 0 < c)
    (hb : b = 8 ∨ b = 16 ∨ b = 32) (hfit : c * (b / 8) < 65536)
    (hdcs : n * c * b / 8 < 4294967296) :
    (mkWriterHeader c sps b n).GetSampleCount = some n := by
  have hb16 : b < 65536 := by rcases hb with rfl | rfl | rfl <;> norm_num
  have hpos : 0 < c * (b / 8) := Nat.mul_pos hc (bits_div8 b hb)
  have hdiv : (mkWriterHeader c sps b n).sampleDivisor = c * (b / 8) := by
    unfold Header.sampleDivisor
    rw [mkWriterHeader_channels c sps b n (chan_lt c b hb hfit),
      mkWriterHeader_bits c sps b n hb16, Nat.mod_eq_of_lt hfit]
  have hdq : (mkWriterHeader c sps b n).DataChunkSize = n * (c * (b / 8)) := by
    show n * c * b / 8 % 4294967296 = n * (c * (b / 8))
    rw [Nat.mod_eq_of_lt hdcs, dataBytesCount c b n hb]
  unfold Header.GetSampleCount
  rw [hdiv, if_neg hpos.ne', hdq, Nat.mul_div_cancel n hpos]

lemma roundTripIntAux (c sps b n : Nat) (frames : List (List Int))
    (hc : 0 < c) (hsps : sps < 4294967296) (hb : b = 8 ∨ b = 16 ∨ b = 32)
    (hfit : c * (b / 8) < 65536) (hdcs : n * c * b / 8 < 4294967296)
    (hflen : frames.length = n)
    (hwf : ∀ f ∈ frames, f.length = c ∧
      ∀ v ∈ f, -(2 ^ (b - 1) : Int) ≤ v ∧ v < 2 ^ (b - 1)) :
    ∃ w k w2 k2 h rest,
      NewWriter { out := [], cap := none } c sps b n = some (w, k) ∧
      writeAllInt w k frames = (none, w2, k2) ∧ w2.ctr = n ∧
      NewReader k2.out = .ok (h, rest) ∧
      h.Channels = c ∧ h.SamplesPerSec = sps ∧ h.BitsPerSample = b ∧
      h.GetSampleCount = some n ∧
      readAllInt h n rest = .ok (frames, []) := by
  have hb16 : b < 65536 := by rcases hb with rfl | rfl | rfl <;> norm_num
  have hc16 : c < 65536 := chan_lt c b hb hfit
  set h0 := mkWriterHeader c sps b n with hh0
  have hchan : h0.Channels = c := mkWriterHeader_channels c sps b n hc16
  have hbits : h0.BitsPerSample = b := mkWriterHeader_bits c sps b n hb16
  have hsps0 : h0.SamplesPerSec = sps := mkWriterHeader_sps c sps b n hsps
  have hnw : NewWriter { out := [], cap := none } c sps b n =
      some ({ H := h0, ctr := 0, numSamples := n },
        { out := encodeHeader h0, cap := none }) := rfl
  have hw0 : ({ H := h0, ctr := 0, numSamples := n } : WaveWriter).H = h0 := rfl
  have hwall := writeAllInt_ok frames { H := h0, ctr := 0, numSamples := n }
    (encodeHeader h0)
    (by intro f hf; rw [hw0, hchan]; exact (hwf f hf).1)
    (by simp [hflen]) (by rw [hw0, hbits]; exact hb)
  have hval : h0.Validate = none := by
    refine mkWriterHeader_validate c sps b n ?_
    have : b % 65536 = b := Nat.mod_eq_of_lt hb16
    rw [this]
    tauto
  have hnr : NewReader (encodeHeader h0 ++ (frames.map (frameBytes b)).flatten) =
      .ok (h0, (frames.map (frameBytes b)).flatten) := by
    unfold NewReader
    rw [hh0, mkWriterHeader_decode c sps b n _, ← hh0]
    simp [hval]
  have hcount : h0.GetSampleCount = some n :=
    mkWriterHeader_sampleCount c sps b n hc hb hfit hdcs
  have hread : readAllInt h0 n ((frames.map (frameBytes b)).flatten) =
      .ok (frames, []) := by
    have := readAllInt_frames h0 (by rw [hbits]; exact hb) frames
      (by intro f hf
          refine ⟨by rw [hchan]; exact (hwf f hf).1, ?_⟩
          intro v hv
          rw [hbits]
          exact (hwf f hf).2 v hv) []
    rw [List.append_nil, hflen, hbits] at this
    exact this
  refine ⟨{ H := h0, ctr := 0, numSamples := n },
    { out := encodeHeader h0, cap := none },
    { H := h0, ctr := 0 + frames.length, numSamples := n },
    { out := encodeHeader h0 ++ (frames.map (frameBytes b)).flatten, cap := none },
    h0, (frames.map (frameBytes b)).flatten,
    hnw, ?_, by simp [hflen], hnr, hchan, hsps0, hbits, hcount, hread⟩
  rw [hwall, hbits]

lemma roundTripFloatAux (c sps n : Nat) (frames : List (List Nat))
    (hc : 0 < c) (hsps : sps < 4294967296)
    (hfit : c * 4 < 65536) (hdcs : n * c * 32 / 8 < 4294967296)
    (hflen : frames.length = n)
    (hwf : ∀ f ∈ frames, f.length = c ∧ ∀ x ∈ f, x < 4294967296) :
    ∃ w k w2 k2 h rest,
      NewWriter { out := [], cap := none } c sps 32 n = some (w, k) ∧
      writeAllFloat w k frames = (none, w2, k2) ∧ w2.ctr = n ∧
      NewReader k2.out = .ok (h, rest) ∧
      h.Channels = c ∧ h.SamplesPerSec = sps ∧ h.BitsPerSample = 32 ∧
      h.GetSampleCount = some n ∧
      readAllFloat h n rest = .ok (frames, []) := by
  have hb : (32 : Nat) = 8 ∨ (32 : Nat) = 16 ∨ (32 : Nat) = 32 := by norm_num
  have hfit8 : c * (32 / 8) < 65536 := by norm_num; omega
  have hc16 : c < 65536 := chan_lt c 32 hb hfit8
  set h0 := mkWriterHeader c sps 32 n with hh0
  have hchan : h0.Channels = c := mkWriterHeader_channels c sps 32 n hc16
  have hbits : h0.BitsPerSample = 32 := mkWriterHeader_bits c sps 32 n (by norm_num)
  have hsps0 : h0.SamplesPerSec = sps := mkWriterHeader_sps c sps 32 n hsps
  have hnw : NewWriter { out := [], cap := none } c sps 32 n =
      some ({ H := h0, ctr := 0, numSamples := n },
        { out := encodeHeader h0, cap := none }) := rfl
  have hwall := writeAllFloat_ok frames { H := h0, ctr := 0, numSamples := n }
    (encodeHeader h0)
    (by intro f hf; show f.length = h0.Channels; rw [hchan]; exact (hwf f hf).1)
    (by simp [hflen]) (by show h0.BitsPerSample = 32; exact hbits)
  have hval : h0.Validate = none := by
    refine mkWriterHeader_validate c sps 32 n ?_
    norm_num
  have hnr : NewReader (encodeHeader h0 ++
      (frames.map (fun f => (f.map le32).flatten)).flatten) =
      .ok (h0, (frames.map (fun f => (f.map le32).flatten)).flatten) := by
    unfold NewReader
    rw [hh0, mkWriterHeader_decode c sps 32 n _, ← hh0]
    simp [hval]
  have hcount : h0.GetSampleCount = some n :=
    mkWriterHeader_sampleCount c sps 32 n hc hb hfit8 hdcs
  have hread : readAllFloat h0 n
      ((frames.map (fun f => (f.map le32).flatten)).flatten) =
      .ok (frames, []) := by
    have := readAllFloat_frames h0 hbits frames
      (by intro f hf
          exact ⟨by rw [hchan]; exact (hwf f hf).1, (hwf f hf).2⟩) []
    rw [List.append_nil, hflen] at this
    exact this
  exact ⟨{ H := h0, ctr := 0, numSamples := n },
    { out := encodeHeader h0, cap := none },
    { H := h0, ctr := 0 + frames.length, numSamples := n },
    { out := encodeHeader h0 ++
        (frames.map (fun f => (f.map le32).flatten)).flatten, cap := none },
    h0, (frames.map (fun f => (f.map le32).flatten)).flatten,
    hnw, hwall, by simp [hflen], hnr, hchan, hsps0, hbits, hcount, hread⟩

/-! ## C1: round-trip -/

/-- The 24-bit writer state used in the C1 counterexample. -/
def w24 : WaveWriter := { H := mkWriterHeader 1 8000 24 1, ctr := 0, numSamples := 1 }

/-- The sink holding exactly the 24-bit header the writer emitted. -/
def k24 : Sink := { out := encodeHeader (mkWriterHeader 1 8000 24 1), cap := none }

/-- C1 counterexample: bitsPerSample = 24 is a valid header parameter and
the frame [0] is representable in 24 bits, yet WriteInt rejects it with
UnsupportedEncoding, the sink still holds only the 44-byte header, and
reading the produced stream back yields TruncatedStream rather than the
frame — so the round trip fails as stated for the 24-bit case. -/
theorem C1_counterexample :
    NewWriter { out := [], cap := none } 1 8000 24 1 = some (w24, k24) ∧
    (WriteInt w24 k24 [0]).1 = some (.unsupportedEncoding 24) ∧
    (WriteInt w24 k24 [0]).2.2 = k24 ∧
    NewReader k24.out = .ok (w24.H, []) ∧
    ReadInt w24.H [] = .error .truncatedStream := by
  refine ⟨rfl, by decide, by decide, by decide, by decide⟩

/-- C1 amended: the round trip holds for the writable encodings. For
bitsPerSample ∈ {8,16,32} and integer frames whose values fit the bit
depth (and parameters within their machine widths), NewWriter + WriteInt
then NewReader + ReadInt reproduce the frames and the header fields
(channels, samplesPerSec, bitsPerSample, sample count); likewise for
bitsPerSample = 32 with WriteFloat/ReadFloat on binary32-representable
float frames. For bitsPerSample = 24 writing is unsupported, so no round
trip exists (see the counterexample). -/
theorem C1_roundTrip :
    (∀ (c sps b n : Nat) (frames : List (List Int)),
      0 < c → sps < 4294967296 → (b = 8 ∨ b = 16 ∨ b = 32) →
      c * (b / 8) < 65536 → n * c * b / 8 < 4294967296 →
      frames.length = n →
      (∀ f ∈ frames, f.length = c ∧
        ∀ v ∈ f, -(2 ^ (b - 1) : Int) ≤ v ∧ v < 2 ^ (b - 1)) →
      ∃ w k w2 k2 h rest,
        NewWriter { out := [], cap := none } c sps b n = some (w, k) ∧
        writeAllInt w k frames = (none, w2, k2) ∧ w2.ctr = n ∧
        NewReader k2.out = .ok (h, rest) ∧
        h.Channels = c ∧ h.SamplesPerSec = sps ∧ h.BitsPerSample = b ∧
        h.GetSampleCount = some n ∧
        readAllInt h n rest = .ok (frames, [])) ∧
    (∀ (c sps n : Nat) (frames : List (List Nat)),
      0 < c → sps < 4294967296 → c * 4 < 65536 → n * c * 32 / 8 < 4294967296 →
      frames.length = n →
      (∀ f ∈ frames, f.length = c ∧ ∀ x ∈ f, x < 4294967296) →
      ∃ w k w2 k2 h rest,
        NewWriter { out := [], cap := none } c sps 32 n = some (w, k) ∧
        writeAllFloat w k frames = (none, w2, k2) ∧ w2.ctr = n ∧
        NewReader k2.out = .ok (h, rest) ∧
        h.Channels = c ∧ h.SamplesPerSec = sps ∧ h.BitsPerSample = 32 ∧
        h.GetSampleCount = some n ∧
        readAllFloat h n rest = .ok (frames, [])) :=
  ⟨fun c sps b n frames hc hsps hb hfit hdcs hflen hwf =>
    roundTripIntAux c sps b n frames hc hsps hb hfit hdcs hflen hwf,
   fun c sps n frames hc hsps hfit hdcs hflen hwf =>
    roundTripFloatAux c sps n frames hc hsps hfit hdcs hflen hwf⟩
